import Mathlib

/-!
Verification of the Datecs fiscal-printer protocol driver core
(`odoo/addons/iot_drivers/static/docs/datecs_programmer_manual.md`).

The repository ships the protocol manual but no driver implementation, so the
frame codec, sequence/retry engine, status decoder and command session below
are modelled from the manual's wire-format rules and the design document's
description of the driver.  Bytes are modelled as natural numbers; wire
buffers as `List Nat`; fallible operations return `Except`.
-/

/-- Modelled from the spec: the driver's failure taxonomy
(`InvalidPayload`, `ChecksumMismatch`, `DeviceUnresponsive`,
`ProtocolViolation`, `TransportUnavailable`). -/
inductive FrameError where
  | invalidPayload
  | checksumMismatch
  | deviceUnresponsive
  | protocolViolation
  | transportUnavailable
  deriving DecidableEq, Repr

/-- Manual: "Each digit from the two bytes is sent after 30H is added to it.
For example the sum 1AE3H is presented as 31H, 3AH, 3EH, 33H."  A 16-bit
value is transmitted as its four hexadecimal digits, each offset by 0x30. -/
def enc16 (v : Nat) : List Nat :=
  [0x30 + v / 4096 % 16, 0x30 + v / 256 % 16, 0x30 + v / 16 % 16, 0x30 + v % 16]

/-- Inverse of `enc16`: reassemble a 16-bit value from its four
0x30-offset hexadecimal digit bytes. -/
def dec16 (b0 b1 b2 b3 : Nat) : Nat :=
  (b0 - 0x30) * 4096 + (b1 - 0x30) * 256 + (b2 - 0x30) * 16 + (b3 - 0x30)

/-- Manual: `<BCC>`: "Control sum (0000H-FFFFH) ... The sum includes between
`<01>` preamble (excluded) to `<05>`."  Arithmetic byte sum modulo 0x10000. -/
def frameSum (l : List Nat) : Nat := l.sum % 65536

/-- A decoded host-to-device protocol unit: `(sequence, command, data)`. -/
structure HostFrame where
  sequence : Nat
  command : Nat
  data : List Nat
  deriving DecidableEq, Repr

/-- The bytes of a host-to-device frame between the preamble (exclusive) and
the postamble 0x05 (inclusive): `LEN(4) SEQ(1) CMD(4) DATA 05`.  The LEN
value is that byte count (`10 + data.length`) plus the fixed offset 0x20,
i.e. `data.length + 42`. -/
def hostBody (sq cmd : Nat) (data : List Nat) : List Nat :=
  enc16 (data.length + 42) ++ [sq] ++ enc16 cmd ++ data ++ [5]

/-- Frame Codec, encode direction (manual: `<01><LEN><SEQ><CMD><DATA><05><BCC><03>`).
Caller-supplied data must be at most 213 bytes, each in 0x20-0xFF, otherwise
the codec fails with `InvalidPayload`. -/
def encode (sq cmd : Nat) (data : List Nat) : Except FrameError (List Nat) :=
  if 213 < data.length then .error .invalidPayload
  else if data.any (fun b => b < 0x20 || 0xFF < b) then .error .invalidPayload
  else .ok (1 :: (hostBody sq cmd data ++ enc16 (frameSum (hostBody sq cmd data)) ++ [3]))

/-- Tail of the host-frame decoder: after LEN-directed splitting, the
remainder must be `05 BCC(4) 03`; the checksum is recomputed over the
preamble-exclusive-to-postamble-inclusive range and compared. -/
def decodeTail (l0 l1 l2 l3 sq c0 c1 c2 c3 : Nat) (data tail : List Nat) :
    Except FrameError HostFrame :=
  match tail with
  | p5 :: w0 :: w1 :: w2 :: w3 :: t :: [] =>
    if p5 ≠ 5 ∨ t ≠ 3 then .error .protocolViolation
    else if frameSum ([l0, l1, l2, l3, sq, c0, c1, c2, c3] ++ data ++ [5]) ≠ dec16 w0 w1 w2 w3 then
      .error .checksumMismatch
    else .ok ⟨sq, dec16 c0 c1 c2 c3, data⟩
  | _ => .error .protocolViolation

/-- Frame Codec, decode direction for host-to-device frames: validates the
preamble/postamble/terminator markers, recovers the data length from LEN,
recomputes the BCC and compares (mismatch is `ChecksumMismatch`). -/
def decode (buf : List Nat) : Except FrameError HostFrame :=
  match buf with
  | pre :: l0 :: l1 :: l2 :: l3 :: sq :: c0 :: c1 :: c2 :: c3 :: rest =>
    if pre ≠ 1 then .error .protocolViolation
    else if dec16 l0 l1 l2 l3 < 42 then .error .protocolViolation
    else decodeTail l0 l1 l2 l3 sq c0 c1 c2 c3
      (rest.take (dec16 l0 l1 l2 l3 - 42)) (rest.drop (dec16 l0 l1 l2 l3 - 42))
  | _ => .error .protocolViolation

lemma dec16_enc16 (v : Nat) (h : v < 65536) :
    dec16 (0x30 + v / 4096 % 16) (0x30 + v / 256 % 16) (0x30 + v / 16 % 16) (0x30 + v % 16) = v := by
  simp only [dec16, Nat.add_sub_cancel_left]
  omega

lemma hostBody_length (sq cmd : Nat) (data : List Nat) :
    (hostBody sq cmd data).length = data.length + 10 := by
  simp [hostBody, enc16]

lemma frameSum_lt (l : List Nat) : frameSum l < 65536 :=
  Nat.mod_lt _ (by norm_num)

/-- Parsing a syntactically well-formed host frame with an arbitrary BCC
field: the result is the original triple when the checksum matches, and
`ChecksumMismatch` otherwise. -/
lemma decode_wire (sq cmd w : Nat) (data : List Nat)
    (hn : data.length ≤ 213) (hcmd : cmd < 65536) (hw : w < 65536) :
    decode (1 :: (hostBody sq cmd data ++ enc16 w ++ [3])) =
      if frameSum (hostBody sq cmd data) = w then .ok ⟨sq, cmd, data⟩
      else .error .checksumMismatch := by
  have hL : data.length + 42 < 65536 := by omega
  have hshape : hostBody sq cmd data ++ enc16 w ++ [3] =
      (0x30 + (data.length + 42) / 4096 % 16) :: (0x30 + (data.length + 42) / 256 % 16) ::
      (0x30 + (data.length + 42) / 16 % 16) :: (0x30 + (data.length + 42) % 16) ::
      sq :: (0x30 + cmd / 4096 % 16) :: (0x30 + cmd / 256 % 16) ::
      (0x30 + cmd / 16 % 16) :: (0x30 + cmd % 16) ::
      (data ++ 5 :: (0x30 + w / 4096 % 16) :: (0x30 + w / 256 % 16) ::
        (0x30 + w / 16 % 16) :: (0x30 + w % 16) :: 3 :: []) := by
    simp [hostBody, enc16]
  rw [hshape]
  show decode _ = _
  rw [decode]
  rw [dec16_enc16 _ hL]
  rw [if_neg (by omega), if_neg (by omega)]
  have hdrop : (data ++ 5 :: (0x30 + w / 4096 % 16) :: (0x30 + w / 256 % 16) ::
      (0x30 + w / 16 % 16) :: (0x30 + w % 16) :: 3 :: []).drop (data.length + 42 - 42) =
      5 :: (0x30 + w / 4096 % 16) :: (0x30 + w / 256 % 16) ::
      (0x30 + w / 16 % 16) :: (0x30 + w % 16) :: 3 :: [] := by
    rw [Nat.add_sub_cancel]
    exact List.drop_left _ _
  have htake : (data ++ 5 :: (0x30 + w / 4096 % 16) :: (0x30 + w / 256 % 16) ::
      (0x30 + w / 16 % 16) :: (0x30 + w % 16) :: 3 :: []).take (data.length + 42 - 42) = data := by
    rw [Nat.add_sub_cancel]
    exact List.take_left _ _
  rw [hdrop, htake, decodeTail]
  rw [if_neg (by omega)]
  rw [dec16_enc16 w hw, dec16_enc16 cmd hcmd]
  have hlist : [0x30 + (data.length + 42) / 4096 % 16, 0x30 + (data.length + 42) / 256 % 16,
      0x30 + (data.length + 42) / 16 % 16, 0x30 + (data.length + 42) % 16,
      sq, 0x30 + cmd / 4096 % 16, 0x30 + cmd / 256 % 16,
      0x30 + cmd / 16 % 16, 0x30 + cmd % 16] ++ data ++ [5] = hostBody sq cmd data := by
    simp [hostBody, enc16]
  rw [hlist]
  by_cases hfs : frameSum (hostBody sq cmd data) = w
  · rw [if_neg (by omega), if_pos hfs]
  · rw [if_pos (by omega), if_neg hfs]

/-- C1: for every valid `(sequence, command, data)` triple within the size
and byte-range limits, decoding the encoded host-to-device frame returns
the original triple (`decode ∘ encode = id`). -/
theorem encode_decode_roundtrip (sq cmd : Nat) (data : List Nat)
    (hs1 : 0x20 ≤ sq) (hs2 : sq ≤ 0xFF) (hcmd : cmd < 65536)
    (hlen : data.length ≤ 213) (hdata : ∀ b ∈ data, 0x20 ≤ b ∧ b ≤ 0xFF) :
    (encode sq cmd data).bind decode = .ok ⟨sq, cmd, data⟩ := by
  have hany : data.any (fun b => b < 0x20 || 0xFF < b) = false := by
    simp only [List.any_eq_false, Bool.or_eq_true, decide_eq_true_eq, not_or]
    intro b hb
    have := hdata b hb
    constructor <;> simp <;> omega
  rw [encode, if_neg (by omega), if_neg (by simp [hany])]
  show decode (1 :: (hostBody sq cmd data ++ enc16 (frameSum (hostBody sq cmd data)) ++ [3])) =
    Except.ok ⟨sq, cmd, data⟩
  rw [decode_wire sq cmd _ data hlen hcmd (frameSum_lt _)]
  simp

/-- Witness for C1 at a concrete valid triple. -/
theorem encode_decode_roundtrip_witness :
    (0x20 ≤ 0x2C ∧ (0x2C : Nat) ≤ 0xFF ∧ (74 : Nat) < 65536) ∧
    (encode 0x2C 74 [0x31, 0x09 + 0x40]).bind decode = .ok ⟨0x2C, 74, [0x31, 0x09 + 0x40]⟩ :=
  ⟨by norm_num,
   encode_decode_roundtrip 0x2C 74 [0x31, 0x09 + 0x40] (by norm_num) (by norm_num)
     (by norm_num) (by norm_num) (by decide)⟩

/-- A decoded device-to-host protocol unit: `(sequence, command, data, status)`;
the status field is exactly 8 bytes. -/
structure RecvFrame where
  sequence : Nat
  command : Nat
  data : List Nat
  status : List Nat
  deriving DecidableEq, Repr

/-- The bytes of a device-to-host frame between the preamble (exclusive) and
the postamble 0x05 (inclusive): `LEN(4) SEQ(1) CMD(4) DATA 04 STATUS(8) 05`.
The LEN value is that byte count (`19 + data.length`) plus 0x20, i.e.
`data.length + 51`. -/
def recvBody (sq cmd : Nat) (data stat : List Nat) : List Nat :=
  enc16 (data.length + 51) ++ [sq] ++ enc16 cmd ++ data ++ [4] ++ stat ++ [5]

/-- Wire form of a device-to-host frame
(manual: `<01><LEN><SEQ><CMD><DATA><04><STATUS><05><BCC><03>`). -/
def encodeRecv (sq cmd : Nat) (data stat : List Nat) : List Nat :=
  1 :: (recvBody sq cmd data stat ++ enc16 (frameSum (recvBody sq cmd data stat)) ++ [3])

/-- Tail of the device-to-host decoder: after LEN-directed splitting the
remainder must be `04 STATUS(8) 05 BCC(4) 03`; the checksum is recomputed
and compared (mismatch is `ChecksumMismatch`). -/
def decodeRecvTail (l0 l1 l2 l3 sq c0 c1 c2 c3 : Nat) (data tail : List Nat) :
    Except FrameError RecvFrame :=
  match tail with
  | p4 :: s0 :: s1 :: s2 :: s3 :: s4 :: s5 :: s6 :: s7 :: p5 :: w0 :: w1 :: w2 :: w3 :: t :: [] =>
    if p4 ≠ 4 ∨ p5 ≠ 5 ∨ t ≠ 3 then .error .protocolViolation
    else if frameSum ([l0, l1, l2, l3, sq, c0, c1, c2, c3] ++ data ++
        4 :: s0 :: s1 :: s2 :: s3 :: s4 :: s5 :: s6 :: s7 :: [5]) ≠ dec16 w0 w1 w2 w3 then
      .error .checksumMismatch
    else .ok ⟨sq, dec16 c0 c1 c2 c3, data, [s0, s1, s2, s3, s4, s5, s6, s7]⟩
  | _ => .error .protocolViolation

/-- Frame Codec, decode direction for device-to-host frames. -/
def decodeRecv (buf : List Nat) : Except FrameError RecvFrame :=
  match buf with
  | pre :: l0 :: l1 :: l2 :: l3 :: sq :: c0 :: c1 :: c2 :: c3 :: rest =>
    if pre ≠ 1 then .error .protocolViolation
    else if dec16 l0 l1 l2 l3 < 51 then .error .protocolViolation
    else decodeRecvTail l0 l1 l2 l3 sq c0 c1 c2 c3
      (rest.take (dec16 l0 l1 l2 l3 - 51)) (rest.drop (dec16 l0 l1 l2 l3 - 51))
  | _ => .error .protocolViolation

lemma exists_eight (l : List Nat) (h : l.length = 8) :
    ∃ a0 a1 a2 a3 a4 a5 a6 a7, l = [a0, a1, a2, a3, a4, a5, a6, a7] := by
  match l, h with
  | [a0, a1, a2, a3, a4, a5, a6, a7], _ => exact ⟨a0, a1, a2, a3, a4, a5, a6, a7, rfl⟩

/-- Parsing a syntactically well-formed device-to-host frame with an
arbitrary BCC field. -/
lemma decodeRecv_wire (sq cmd w : Nat) (data stat : List Nat)
    (hn : data.length ≤ 218) (hcmd : cmd < 65536) (hw : w < 65536)
    (hstat : stat.length = 8) :
    decodeRecv (1 :: (recvBody sq cmd data stat ++ enc16 w ++ [3])) =
      if frameSum (recvBody sq cmd data stat) = w then .ok ⟨sq, cmd, data, stat⟩
      else .error .checksumMismatch := by
  obtain ⟨s0, s1, s2, s3, s4, s5, s6, s7, rfl⟩ := exists_eight stat hstat
  have hL : data.length + 51 < 65536 := by omega
  have hshape : recvBody sq cmd data [s0, s1, s2, s3, s4, s5, s6, s7] ++ enc16 w ++ [3] =
      (0x30 + (data.length + 51) / 4096 % 16) :: (0x30 + (data.length + 51) / 256 % 16) ::
      (0x30 + (data.length + 51) / 16 % 16) :: (0x30 + (data.length + 51) % 16) ::
      sq :: (0x30 + cmd / 4096 % 16) :: (0x30 + cmd / 256 % 16) ::
      (0x30 + cmd / 16 % 16) :: (0x30 + cmd % 16) ::
      (data ++ 4 :: s0 :: s1 :: s2 :: s3 :: s4 :: s5 :: s6 :: s7 :: 5 ::
        (0x30 + w / 4096 % 16) :: (0x30 + w / 256 % 16) ::
        (0x30 + w / 16 % 16) :: (0x30 + w % 16) :: 3 :: []) := by
    simp [recvBody, enc16]
  rw [hshape]
  show decodeRecv _ = _
  rw [decodeRecv]
  rw [dec16_enc16 _ hL]
  rw [if_neg (by omega), if_neg (by omega)]
  have hdrop : (data ++ 4 :: s0 :: s1 :: s2 :: s3 :: s4 :: s5 :: s6 :: s7 :: 5 ::
      (0x30 + w / 4096 % 16) :: (0x30 + w / 256 % 16) ::
      (0x30 + w / 16 % 16) :: (0x30 + w % 16) :: 3 :: []).drop (data.length + 51 - 51) =
      4 :: s0 :: s1 :: s2 :: s3 :: s4 :: s5 :: s6 :: s7 :: 5 ::
      (0x30 + w / 4096 % 16) :: (0x30 + w / 256 % 16) ::
      (0x30 + w / 16 % 16) :: (0x30 + w % 16) :: 3 :: [] := by
    rw [Nat.add_sub_cancel]
    exact List.drop_left _ _
  have htake : (data ++ 4 :: s0 :: s1 :: s2 :: s3 :: s4 :: s5 :: s6 :: s7 :: 5 ::
      (0x30 + w / 4096 % 16) :: (0x30 + w / 256 % 16) ::
      (0x30 + w / 16 % 16) :: (0x30 + w % 16) :: 3 :: []).take (data.length + 51 - 51) = data := by
    rw [Nat.add_sub_cancel]
    exact List.take_left _ _
  rw [hdrop, htake, decodeRecvTail]
  rw [if_neg (by omega)]
  rw [dec16_enc16 w hw, dec16_enc16 cmd hcmd]
  have hlist : [0x30 + (data.length + 51) / 4096 % 16, 0x30 + (data.length + 51) / 256 % 16,
      0x30 + (data.length + 51) / 16 % 16, 0x30 + (data.length + 51) % 16,
      sq, 0x30 + cmd / 4096 % 16, 0x30 + cmd / 256 % 16,
      0x30 + cmd / 16 % 16, 0x30 + cmd % 16] ++ data ++
      4 :: s0 :: s1 :: s2 :: s3 :: s4 :: s5 :: s6 :: s7 :: [5] =
      recvBody sq cmd data [s0, s1, s2, s3, s4, s5, s6, s7] := by
    simp [recvBody, enc16]
  rw [hlist]
  by_cases hfs : frameSum (recvBody sq cmd data [s0, s1, s2, s3, s4, s5, s6, s7]) = w
  · rw [if_neg (by omega), if_pos hfs]
  · rw [if_pos (by omega), if_neg hfs]

lemma sum_set_get (l : List Nat) (i : Nat) (x : Nat) (h : i < l.length) :
    (l.set i x).sum + l.get ⟨i, h⟩ = l.sum + x := by
  induction l generalizing i with
  | nil => simp at h
  | cons a t ih =>
    cases i with
    | zero => simp [List.set]; omega
    | succ n =>
      have h' : n < t.length := by simpa using h
      have := ih n h'
      simp only [List.set_cons_succ, List.sum_cons, List.get_cons_succ]
      omega

set_option maxRecDepth 8192 in
lemma xor_single_bit :
    ∀ b : Nat, b < 256 → ∀ k : Nat, k < 8 →
      Nat.xor b (2 ^ k) ≠ b ∧
      (Nat.xor b (2 ^ k) = b + 2 ^ k ∨ b = Nat.xor b (2 ^ k) + 2 ^ k) := by decide

lemma recvBody_sum (sq cmd : Nat) (d stat : List Nat) :
    (recvBody sq cmd d stat).sum =
      (enc16 (d.length + 51)).sum + sq + (enc16 cmd).sum + d.sum + 9 + stat.sum := by
  simp [recvBody, List.sum_append]
  omega

/-- C3: flipping a single bit of one data-payload byte of a well-formed
inbound (device-to-host) frame buffer makes `decodeRecv` fail with
`ChecksumMismatch`; the corrupted buffer is never decoded successfully. -/
theorem decodeRecv_rejects_bitflip (sq cmd : Nat) (data stat : List Nat) (i k : Nat)
    (hn : data.length ≤ 218) (hcmd : cmd < 65536) (hstat : stat.length = 8)
    (hbyte : ∀ b ∈ data, 0x20 ≤ b ∧ b ≤ 0xFF)
    (hi : i < data.length) (hk : k < 8) :
    decodeRecv ((encodeRecv sq cmd data stat).set (10 + i)
        (Nat.xor (data.get ⟨i, hi⟩) (2 ^ k))) = .error .checksumMismatch := by
  set b := data.get ⟨i, hi⟩ with hb
  set b' := Nat.xor b (2 ^ k) with hb'
  have hb255 : b ≤ 255 := (hbyte b (List.get_mem data i hi)).2
  obtain ⟨hne, hdelta⟩ := xor_single_bit b (by omega) k hk
  set w := frameSum (recvBody sq cmd data stat) with hw
  -- rewrite the corrupted buffer as a well-formed wire image of the
  -- corrupted payload with the original (now stale) checksum field
  have hsplit : encodeRecv sq cmd data stat =
      ([1] ++ enc16 (data.length + 51) ++ [sq] ++ enc16 cmd) ++
        (data ++ ([4] ++ stat ++ [5] ++ enc16 w ++ [3])) := by
    simp [encodeRecv, recvBody, hw]
  have hplen : ([1] ++ enc16 (data.length + 51) ++ [sq] ++ enc16 cmd).length = 10 := by
    simp [enc16]
  have hset : (encodeRecv sq cmd data stat).set (10 + i) b' =
      1 :: (recvBody sq cmd (data.set i b') stat ++ enc16 w ++ [3]) := by
    rw [hsplit, List.set_append_right _ _ (by omega)]
    rw [hplen]
    have : 10 + i - 10 = i := by omega
    rw [this, List.set_append_left _ _ hi]
    simp [recvBody, enc16, List.length_set]
  rw [hset]
  rw [decodeRecv_wire sq cmd w (data.set i b') stat (by simpa using hn) hcmd
    (hw ▸ frameSum_lt _) hstat]
  have hsum : (data.set i b').sum + b = data.sum + b' := sum_set_get data i b' hi
  have hexp1 : 0 < 2 ^ k := Nat.pos_pow_of_pos k (by norm_num)
  have hexp2 : 2 ^ k ≤ 128 := by
    calc 2 ^ k ≤ 2 ^ 7 := Nat.pow_le_pow_right (by norm_num) (by omega)
    _ = 128 := by norm_num
  rw [if_neg]
  rw [hw, frameSum, frameSum]
  rw [recvBody_sum, recvBody_sum, List.length_set]
  omega

/-- Witness for C3 at a concrete well-formed inbound frame with bit 0 of
data byte 0 flipped on the wire. -/
theorem decodeRecv_rejects_bitflip_witness :
    decodeRecv ((encodeRecv 0x20 74 [0x20] [0x80, 0x80, 0x80, 0x80, 0x80, 0x80, 0x80, 0x80]).set 10
        (Nat.xor ([0x20].get ⟨0, by decide⟩) (2 ^ 0))) = .error .checksumMismatch :=
  decodeRecv_rejects_bitflip 0x20 74 [0x20] [0x80, 0x80, 0x80, 0x80, 0x80, 0x80, 0x80, 0x80] 0 0
    (by decide) (by decide) (by decide) (by decide) (by decide) (by decide)

/-- Modelled from the spec: the device's wrapped reply to a request.  Manual:
"The fiscal printer saves the same `<SEQ>` in the return message" and "The
fiscal printer saves the same `<CMD>` in the return message"; only the answer
data and status are of the device's choosing. -/
def deviceReply (req : HostFrame) (answer stat : List Nat) : List Nat :=
  encodeRecv req.sequence req.command answer stat

/-- C10: every wrapped reply the device sends in answer to a host frame
decodes successfully and carries the request's SEQ and CMD; hence a
checksum-valid reply whose sequence matches the last sent sequence also
carries the command that was sent. -/
theorem deviceReply_echoes_seq_cmd (req : HostFrame) (answer stat : List Nat)
    (hn : answer.length ≤ 218) (hcmd : req.command < 65536) (hstat : stat.length = 8) :
    decodeRecv (deviceReply req answer stat) =
      .ok ⟨req.sequence, req.command, answer, stat⟩ := by
  rw [deviceReply, encodeRecv]
  rw [decodeRecv_wire req.sequence req.command _ answer stat hn hcmd (frameSum_lt _) hstat]
  simp

/-- Witness for C10 at a concrete request and reply. -/
theorem deviceReply_echoes_seq_cmd_witness :
    decodeRecv (deviceReply ⟨0x21, 74, [0x31]⟩ [0x30, 0x09]
        [0x80, 0x80, 0xA0, 0x80, 0x80, 0x80, 0x80, 0x80]) =
      .ok ⟨0x21, 74, [0x30, 0x09], [0x80, 0x80, 0xA0, 0x80, 0x80, 0x80, 0x80, 0x80]⟩ :=
  deviceReply_echoes_seq_cmd ⟨0x21, 74, [0x31]⟩ [0x30, 0x09]
    [0x80, 0x80, 0xA0, 0x80, 0x80, 0x80, 0x80, 0x80] (by decide) (by decide) (by decide)

lemma mem_enc16_ge (a v : Nat) (h : a ∈ enc16 v) : 0x30 ≤ a := by
  simp only [enc16, List.mem_cons, List.not_mem_nil, or_false] at h
  rcases h with h | h | h | h <;> omega

/-- The spec's literal reading of the LEN transmission ("each decimal digit
independently offset by 0x30"): the value's four decimal digits, each
offset by 0x30.  Kept for comparison with the manual's hexadecimal-digit
rule `enc16`. -/
def specLenDecimal (v : Nat) : List Nat :=
  [0x30 + v / 1000 % 10, 0x30 + v / 100 % 10, 0x30 + v / 10 % 10, 0x30 + v % 10]

/-- The LEN field of an encoded wire buffer: the four bytes after the preamble. -/
def lenField (buf : List Nat) : List Nat := (buf.drop 1).take 4

/-- The number of bytes from the preamble (exclusive) to the postamble 0x05
(inclusive) of a wire buffer. -/
def postambleSpan (buf : List Nat) : Nat := (buf.takeWhile (fun b => b != 5)).length

/-- C2 counterexample: at the valid input `(0x20, 74, [0x20])` the encoder's
LEN field is the hexadecimal-digit encoding `[0x30, 0x30, 0x32, 0x3B]` of
43 = 0x2B, not the decimal-digit encoding `[0x30, 0x30, 0x34, 0x33]` the
claim prescribes. -/
theorem lenField_not_decimal_digits :
    encode 0x20 74 [0x20] =
      .ok [1, 0x30, 0x30, 0x32, 0x3B, 0x20, 0x30, 0x30, 0x34, 0x3A, 0x20, 5,
           0x30, 0x31, 0x3E, 0x30, 3] ∧
    lenField [1, 0x30, 0x30, 0x32, 0x3B, 0x20, 0x30, 0x30, 0x34, 0x3A, 0x20, 5,
           0x30, 0x31, 0x3E, 0x30, 3] = [0x30, 0x30, 0x32, 0x3B] ∧
    postambleSpan [1, 0x30, 0x30, 0x32, 0x3B, 0x20, 0x30, 0x30, 0x34, 0x3A, 0x20, 5,
           0x30, 0x31, 0x3E, 0x30, 3] = 11 ∧
    specLenDecimal (11 + 0x20) = [0x30, 0x30, 0x34, 0x33] ∧
    ([0x30, 0x30, 0x32, 0x3B] : List Nat) ≠ [0x30, 0x30, 0x34, 0x33] :=
  ⟨by rfl, by decide, by decide, by decide, by decide⟩

/-- C2 (amended): the encoder writes LEN as the byte count from the preamble
(exclusive) to the postamble (inclusive) plus 0x20, transmitted as a 4-digit
value in which each HEXADECIMAL digit is independently offset by 0x30. -/
theorem lenField_hex_digits (sq cmd : Nat) (data buf : List Nat)
    (hs1 : 0x20 ≤ sq) (hs2 : sq ≤ 0xFF)
    (henc : encode sq cmd data = .ok buf) :
    lenField buf = enc16 (postambleSpan buf + 0x20) := by
  rw [encode] at henc
  split at henc
  · cases henc
  split at henc
  · cases henc
  next hlen hany =>
  have hdata : ∀ b ∈ data, 0x20 ≤ b ∧ b ≤ 0xFF := by
    intro b hb
    have := List.any_eq_false.mp (Bool.not_eq_true _ |>.mp hany) b hb
    simp only [Bool.or_eq_true, decide_eq_true_eq, not_or] at this
    omega
  cases henc
  have hshape : hostBody sq cmd data ++ enc16 (frameSum (hostBody sq cmd data)) ++ [3] =
      (enc16 (data.length + 42) ++ ([sq] ++ (enc16 cmd ++ data))) ++
        (5 :: (enc16 (frameSum (hostBody sq cmd data)) ++ [3])) := by
    simp [hostBody, List.append_assoc]
  have hA : ∀ a ∈ enc16 (data.length + 42) ++ ([sq] ++ (enc16 cmd ++ data)),
      (a != 5) = true := by
    intro a ha
    simp only [List.mem_append, List.mem_singleton] at ha
    simp only [bne_iff_ne, ne_eq]
    rcases ha with h | h | h | h
    · have := mem_enc16_ge a _ h; omega
    · subst h; omega
    · have := mem_enc16_ge a _ h; omega
    · have := (hdata a h).1; omega
  have htw : (1 :: (hostBody sq cmd data ++ enc16 (frameSum (hostBody sq cmd data)) ++ [3])).takeWhile
        (fun b => b != 5) =
      1 :: (enc16 (data.length + 42) ++ ([sq] ++ (enc16 cmd ++ data))) := by
    rw [List.takeWhile_cons_of_pos (by decide), hshape]
    rw [List.takeWhile_append_of_pos hA]
    rw [List.takeWhile_cons_of_neg (by decide)]
    simp
  have hspan : postambleSpan
      (1 :: (hostBody sq cmd data ++ enc16 (frameSum (hostBody sq cmd data)) ++ [3])) =
      data.length + 10 := by
    rw [postambleSpan, htw]
    simp [enc16]
  have hlf : lenField
      (1 :: (hostBody sq cmd data ++ enc16 (frameSum (hostBody sq cmd data)) ++ [3])) =
      enc16 (data.length + 42) := by
    rw [lenField, List.drop_one, List.tail_cons]
    have hshape2 : hostBody sq cmd data ++ enc16 (frameSum (hostBody sq cmd data)) ++ [3] =
        enc16 (data.length + 42) ++
          (([sq] ++ (enc16 cmd ++ data)) ++
            (5 :: (enc16 (frameSum (hostBody sq cmd data)) ++ [3]))) := by
      simp [hostBody, List.append_assoc]
    rw [hshape2]
    exact List.take_left' (by simp [enc16])
  rw [hlf, hspan]

/-- Witness for the amended C2 at the concrete valid input `(0x20, 74, [])`. -/
theorem lenField_hex_digits_witness :
    (0x20 ≤ (0x20 : Nat) ∧ (0x20 : Nat) ≤ 0xFF) ∧
    lenField [1, 0x30, 0x30, 0x32, 0x3A, 0x20, 0x30, 0x30, 0x34, 0x3A, 5,
        0x30, 0x31, 0x3B, 0x3F, 3] =
      enc16 (postambleSpan [1, 0x30, 0x30, 0x32, 0x3A, 0x20, 0x30, 0x30, 0x34, 0x3A, 5,
        0x30, 0x31, 0x3B, 0x3F, 3] + 0x20) :=
  ⟨⟨by norm_num, by norm_num⟩,
   lenField_hex_digits 0x20 74 []
     [1, 0x30, 0x30, 0x32, 0x3A, 0x20, 0x30, 0x30, 0x34, 0x3A, 5, 0x30, 0x31, 0x3B, 0x3F, 3]
     (by norm_num) (by norm_num) (by rfl)⟩

/-- Manual: "The symbols with ASCII codes under 32 (20H) have special meanings
... If such a symbol has to be sent for some reason ... it must be preceded
by 16 (10H) with an added offset 40H." -/
def escapeByte (b : Nat) : List Nat :=
  if b < 0x20 then [0x10, b + 0x40] else [b]

/-- Escape every low byte of a payload per the manual's rule. -/
def escapeData : List Nat → List Nat
  | [] => []
  | b :: rest => escapeByte b ++ escapeData rest

/-- C7: a caller-supplied data byte outside 0x20-0xFF makes `encode` fail
with `InvalidPayload`, while a byte below 0x20 that must be transmitted
literally is escaped by prefixing 0x10 and adding 0x40 to it. -/
theorem encode_invalidPayload_and_escape (sq cmd b : Nat) (data : List Nat)
    (hmem : b ∈ data) (hout : b < 0x20 ∨ 0xFF < b) :
    encode sq cmd data = .error .invalidPayload ∧
    ∀ c < 0x20, escapeByte c = [0x10, c + 0x40] := by
  constructor
  · have hany : data.any (fun x => x < 0x20 || 0xFF < x) = true := by
      rw [List.any_eq_true]
      exact ⟨b, hmem, by simpa using hout⟩
    by_cases hl : 213 < data.length
    · rw [encode, if_pos hl]
    · rw [encode, if_neg hl, if_pos hany]
  · intro c hc
    simp [escapeByte, hc]

/-- Witness for C7: a tab byte (0x09) in the payload is rejected, and its
literal-transmission escape is `[0x10, 0x49]`. -/
theorem encode_invalidPayload_and_escape_witness :
    ((0x09 : Nat) ∈ [(0x09 : Nat)] ∧ ((0x09 : Nat) < 0x20 ∨ (0xFF : Nat) < 0x09)) ∧
    (encode 0x20 74 [0x09] = .error .invalidPayload ∧
      ∀ c < 0x20, escapeByte c = [0x10, c + 0x40]) :=
  ⟨⟨by decide, by decide⟩,
   encode_invalidPayload_and_escape 0x20 74 0x09 [0x09] (by decide) (by decide)⟩

/-- Bit `i` of status byte `b`. -/
def bit (b i : Nat) : Bool := Nat.testBit b i

/-- Status Snapshot: the manual's 8-byte status field decoded into named
flags, plus the two aggregates and a fixed-bit diagnostic. -/
structure StatusFlags where
  coverOpen : Bool
  generalError : Bool
  printingFailure : Bool
  rtcNotSynced : Bool
  invalidCommand : Bool
  syntaxFault : Bool
  notPermitted : Bool
  overflow : Bool
  nonfiscalOpen : Bool
  ejNearlyFull : Bool
  fiscalOpen : Bool
  ejFull : Bool
  nearPaperEnd : Bool
  endOfPaper : Bool
  fmMissing : Bool
  fiscalMemError : Bool
  fmFull : Bool
  fmSpaceLow : Bool
  serialSet : Bool
  taxSet : Bool
  fmAccessError : Bool
  vatSet : Bool
  fiscalized : Bool
  fmFormatted : Bool
  aggGeneralError : Bool
  aggFiscalError : Bool
  reservedViolation : Bool
  deriving DecidableEq, Repr

/-- One status byte's fixed bits: `mask1` bits must be 1, `mask0` bits 0. -/
def fixedByteOk (b mask1 mask0 : Nat) : Bool :=
  (Nat.land b mask1 == mask1) && (Nat.land b mask0 == 0)

/-- The manual's "Always 1" (bit 7 of every byte) and "Always 0" bits. -/
def fixedBitsOk (s : List Nat) : Bool :=
  fixedByteOk (s.getD 0 0) 0x80 0x08 &&
  fixedByteOk (s.getD 1 0) 0x80 0x7C &&
  fixedByteOk (s.getD 2 0) 0x80 0x40 &&
  fixedByteOk (s.getD 3 0) 0x80 0x7F &&
  fixedByteOk (s.getD 4 0) 0x80 0x00 &&
  fixedByteOk (s.getD 5 0) 0x80 0x65 &&
  fixedByteOk (s.getD 6 0) 0x80 0x7F &&
  fixedByteOk (s.getD 7 0) 0x80 0x7F

/-- Status Decoder: total decode of the 8-byte status field per the manual's
byte/bit table.  Never fails; fixed-bit ("Always 1"/"Always 0") violations
are reported as a soft diagnostic in `reservedViolation`. -/
def decodeStatus (s : List Nat) : StatusFlags :=
  let b0 := s.getD 0 0
  let b1 := s.getD 1 0
  let b2 := s.getD 2 0
  let b4 := s.getD 4 0
  let b5 := s.getD 5 0
  { coverOpen := bit b0 6
    generalError := bit b0 5
    printingFailure := bit b0 4
    rtcNotSynced := bit b0 2
    invalidCommand := bit b0 1
    syntaxFault := bit b0 0
    notPermitted := bit b1 1
    overflow := bit b1 0
    nonfiscalOpen := bit b2 5
    ejNearlyFull := bit b2 4
    fiscalOpen := bit b2 3
    ejFull := bit b2 2
    nearPaperEnd := bit b2 1
    endOfPaper := bit b2 0
    fmMissing := bit b4 6
    fiscalMemError := bit b4 5
    fmFull := bit b4 4
    fmSpaceLow := bit b4 3
    serialSet := bit b4 2
    taxSet := bit b4 1
    fmAccessError := bit b4 0
    vatSet := bit b5 4
    fiscalized := bit b5 3
    fmFormatted := bit b5 1
    aggGeneralError := bit b0 4 || bit b0 1 || bit b0 0 || bit b1 1 || bit b1 0
    aggFiscalError := bit b4 4 || bit b4 0
    reservedViolation := !(fixedBitsOk s) }

/-- C8: a status whose byte 0 equals 0x30 decodes with `generalError` and
`printingFailure` set and every other byte-0 flag clear. -/
theorem decodeStatus_byte0_0x30 (s : List Nat) (h : s.getD 0 0 = 0x30) :
    (decodeStatus s).generalError = true ∧ (decodeStatus s).printingFailure = true ∧
    (decodeStatus s).coverOpen = false ∧ (decodeStatus s).rtcNotSynced = false ∧
    (decodeStatus s).invalidCommand = false ∧ (decodeStatus s).syntaxFault = false := by
  simp only [decodeStatus, bit, h]
  refine ⟨by decide, by decide, by decide, by decide, by decide, by decide⟩

/-- Witness for C8 at the concrete status `[0x30, 0, 0, 0, 0, 0, 0, 0]`. -/
theorem decodeStatus_byte0_0x30_witness :
    (decodeStatus [0x30, 0, 0, 0, 0, 0, 0, 0]).generalError = true ∧
    (decodeStatus [0x30, 0, 0, 0, 0, 0, 0, 0]).printingFailure = true ∧
    (decodeStatus [0x30, 0, 0, 0, 0, 0, 0, 0]).coverOpen = false ∧
    (decodeStatus [0x30, 0, 0, 0, 0, 0, 0, 0]).rtcNotSynced = false ∧
    (decodeStatus [0x30, 0, 0, 0, 0, 0, 0, 0]).invalidCommand = false ∧
    (decodeStatus [0x30, 0, 0, 0, 0, 0, 0, 0]).syntaxFault = false :=
  decodeStatus_byte0_0x30 [0x30, 0, 0, 0, 0, 0, 0, 0] (by decide)

/-- C9: status decoding is total — `decodeStatus` is a function on all byte
lists; a fixed-bit ("Always 1"/"Always 0") violation only sets the
`reservedViolation` diagnostic, and the all-zero status yields every flag
clear plus that diagnostic. -/
theorem decodeStatus_total_diagnostic (s : List Nat) (h : fixedBitsOk s = false) :
    (decodeStatus s).reservedViolation = true ∧
    ((decodeStatus (List.replicate 8 0)).coverOpen = false ∧
     (decodeStatus (List.replicate 8 0)).generalError = false ∧
     (decodeStatus (List.replicate 8 0)).printingFailure = false ∧
     (decodeStatus (List.replicate 8 0)).rtcNotSynced = false ∧
     (decodeStatus (List.replicate 8 0)).invalidCommand = false ∧
     (decodeStatus (List.replicate 8 0)).syntaxFault = false ∧
     (decodeStatus (List.replicate 8 0)).notPermitted = false ∧
     (decodeStatus (List.replicate 8 0)).overflow = false ∧
     (decodeStatus (List.replicate 8 0)).nonfiscalOpen = false ∧
     (decodeStatus (List.replicate 8 0)).ejNearlyFull = false ∧
     (decodeStatus (List.replicate 8 0)).fiscalOpen = false ∧
     (decodeStatus (List.replicate 8 0)).ejFull = false ∧
     (decodeStatus (List.replicate 8 0)).nearPaperEnd = false ∧
     (decodeStatus (List.replicate 8 0)).endOfPaper = false ∧
     (decodeStatus (List.replicate 8 0)).fmMissing = false ∧
     (decodeStatus (List.replicate 8 0)).fiscalMemError = false ∧
     (decodeStatus (List.replicate 8 0)).fmFull = false ∧
     (decodeStatus (List.replicate 8 0)).fmSpaceLow = false ∧
     (decodeStatus (List.replicate 8 0)).serialSet = false ∧
     (decodeStatus (List.replicate 8 0)).taxSet = false ∧
     (decodeStatus (List.replicate 8 0)).fmAccessError = false ∧
     (decodeStatus (List.replicate 8 0)).vatSet = false ∧
     (decodeStatus (List.replicate 8 0)).fiscalized = false ∧
     (decodeStatus (List.replicate 8 0)).fmFormatted = false ∧
     (decodeStatus (List.replicate 8 0)).aggGeneralError = false ∧
     (decodeStatus (List.replicate 8 0)).aggFiscalError = false ∧
     (decodeStatus (List.replicate 8 0)).reservedViolation = true) := by
  constructor
  · simp [decodeStatus, h]
  · decide

/-- Witness for C9: the all-zero status violates the fixed bits and is
reported through the diagnostic, not a failure. -/
theorem decodeStatus_total_diagnostic_witness :
    (decodeStatus (List.replicate 8 0)).reservedViolation = true :=
  (decodeStatus_total_diagnostic (List.replicate 8 0) (by decide)).1

/-- Non-wrapped control bytes (NAK 0x15, SYN 0x16) and wrapped replies, as
events received from the transport. -/
inductive Wire where
  | nak
  | syn
  | frame (bytes : List Nat)
  deriving DecidableEq, Repr

/-- A received event stamped with its arrival time in milliseconds. -/
structure TimedEvent where
  time : Nat
  ev : Wire
  deriving DecidableEq, Repr

inductive ExchangeResult where
  | success (f : RecvFrame)
  | failed (e : FrameError)
  deriving DecidableEq, Repr

/-- Modelled from the spec: engine state while `AwaitingReply` — the 500 ms
receive deadline, the remaining retry budget, and the log of frame
(re)transmissions handed to the transport. -/
structure EngineState where
  deadline : Nat
  retriesLeft : Nat
  sends : List (List Nat)
  deriving DecidableEq, Repr

/-- Fire every 500 ms no-reply timeout that elapses before instant `t`:
each one retransmits the frame and re-arms the deadline; the flag is
`false` when the retry budget runs out first. -/
def fireTimeouts (sent : List Nat) (t : Nat) :
    Nat → Nat → List (List Nat) → EngineState × Bool
  | d, 0, log => (⟨d, 0, log⟩, decide (t ≤ d))
  | d, r + 1, log =>
    if t ≤ d then (⟨d, r + 1, log⟩, true)
    else fireTimeouts sent t (d + 500) r (log ++ [sent])

inductive StepOut where
  | cont (st : EngineState)
  | done (r : ExchangeResult) (st : EngineState)
  deriving DecidableEq, Repr

/-- Modelled from the spec: one engine step on an event arriving within the
current deadline.  SYN re-arms only the wait clock; NAK retransmits the
same frame verbatim; a checksum-valid wrapped frame with the expected
sequence is `Success`; a valid frame with the wrong sequence is a
`ProtocolViolation`; a corrupt frame is NAK'd and awaited again until the
retry budget is exhausted. -/
def engineStep (sent : List Nat) (expSeq : Nat) (e : TimedEvent) (st : EngineState) : StepOut :=
  match e.ev with
  | .nak =>
    match st.retriesLeft with
    | 0 => .done (.failed .deviceUnresponsive) st
    | r + 1 => .cont ⟨e.time + 500, r, st.sends ++ [sent]⟩
  | .syn => .cont ⟨e.time + 500, st.retriesLeft, st.sends⟩
  | .frame bytes =>
    match decodeRecv bytes with
    | .ok f =>
      if f.sequence = expSeq then .done (.success f) st
      else .done (.failed .protocolViolation) st
    | .error _ =>
      match st.retriesLeft with
      | 0 => .done (.failed .checksumMismatch) st
      | r + 1 => .cont ⟨e.time + 500, r, st.sends⟩

/-- Sequence/Retry Engine: run one exchange over a time-ordered script of
received events.  When the input ends with no reply, the remaining
timeouts fire (each retransmitting the frame) and the exchange fails with
`DeviceUnresponsive`. -/
def runEngine (sent : List Nat) (expSeq : Nat) :
    List TimedEvent → EngineState → ExchangeResult × EngineState
  | [], st =>
    (.failed .deviceUnresponsive,
     ⟨st.deadline + 500 * st.retriesLeft, 0, st.sends ++ List.replicate st.retriesLeft sent⟩)
  | e :: es, st =>
    match fireTimeouts sent e.time st.deadline st.retriesLeft st.sends with
    | (st1, false) => (.failed .deviceUnresponsive, st1)
    | (st1, true) =>
      match engineStep sent expSeq e st1 with
      | .cont st2 => runEngine sent expSeq es st2
      | .done r stf => (r, stf)

lemma fireTimeouts_noop (sent : List Nat) (t d r : Nat) (log : List (List Nat))
    (h : t ≤ d) : fireTimeouts sent t d r log = (⟨d, r, log⟩, true) := by
  cases r with
  | zero => simp [fireTimeouts, h]
  | succ n => rw [fireTimeouts, if_pos h]

lemma fireTimeouts_sends (sent : List Nat) (t : Nat) :
    ∀ r d log x, x ∈ ((fireTimeouts sent t d r log).1).sends → x ∈ log ∨ x = sent := by
  intro r
  induction r with
  | zero =>
    intro d log x hx
    simp only [fireTimeouts] at hx
    exact .inl hx
  | succ n ih =>
    intro d log x hx
    rw [fireTimeouts] at hx
    by_cases h : t ≤ d
    · rw [if_pos h] at hx
      exact .inl hx
    · rw [if_neg h] at hx
      rcases ih (d + 500) (log ++ [sent]) x hx with h2 | h2
      · rcases List.mem_append.mp h2 with h3 | h3
        · exact .inl h3
        · right; simpa using h3
      · exact .inr h2

lemma engineStep_cont_sends (sent : List Nat) (expSeq : Nat) (e : TimedEvent)
    (st st2 : EngineState) (h : engineStep sent expSeq e st = .cont st2) :
    st2.sends = st.sends ∨ st2.sends = st.sends ++ [sent] := by
  rw [engineStep] at h
  split at h
  · split at h
    · cases h
    · cases h; right; rfl
  · cases h; left; rfl
  · split at h
    · split at h <;> cases h
    · split at h
      · cases h
      · cases h; left; rfl

lemma engineStep_done_state (sent : List Nat) (expSeq : Nat) (e : TimedEvent)
    (st stf : EngineState) (r : ExchangeResult)
    (h : engineStep sent expSeq e st = .done r stf) : stf = st := by
  rw [engineStep] at h
  split at h
  · split at h
    · cases h; rfl
    · cases h
  · cases h
  · split at h
    · split at h <;> (cases h; rfl)
    · split at h
      · cases h; rfl
      · cases h

lemma runEngine_sends (sent : List Nat) (expSeq : Nat) :
    ∀ events st x, x ∈ (runEngine sent expSeq events st).2.sends →
      x ∈ st.sends ∨ x = sent := by
  intro events
  induction events with
  | nil =>
    intro st x hx
    simp only [runEngine] at hx
    rcases List.mem_append.mp hx with h | h
    · exact .inl h
    · exact .inr (List.eq_of_mem_replicate h)
  | cons e es ih =>
    intro st x hx
    rw [runEngine] at hx
    split at hx
    · rename_i st1 heq
      have h0 := fireTimeouts_sends sent e.time st.retriesLeft st.deadline st.sends x
      rw [heq] at h0
      exact h0 hx
    · rename_i st1 heq
      have hsub : ∀ y, y ∈ st1.sends → y ∈ st.sends ∨ y = sent := by
        intro y hy
        have h0 := fireTimeouts_sends sent e.time st.retriesLeft st.deadline st.sends y
        rw [heq] at h0
        exact h0 hy
      split at hx
      · rename_i st2 hs
        rcases ih st2 x hx with h2 | h2
        · rcases engineStep_cont_sends sent expSeq e st1 st2 hs with h3 | h3
          · exact hsub x (h3 ▸ h2)
          · rw [h3] at h2
            rcases List.mem_append.mp h2 with h4 | h4
            · exact hsub x h4
            · right; simpa using h4
        · exact .inr h2
      · rename_i r stf hs
        have he := engineStep_done_state sent expSeq e st1 stf r hs
        subst he
        exact hsub x hx

/-- C5: on a received NAK while awaiting a reply, the engine retransmits
byte-for-byte the frame it last sent (same sequence, command and data);
moreover every buffer the engine ever hands to the transport during an
exchange is exactly that frame, for any event script and any number of
retries. -/
theorem engine_nak_retransmits_verbatim (sent : List Nat) (expSeq : Nat) :
    (∀ t es d r log, t ≤ d →
      runEngine sent expSeq (⟨t, Wire.nak⟩ :: es) ⟨d, r + 1, log⟩ =
        runEngine sent expSeq es ⟨t + 500, r, log ++ [sent]⟩) ∧
    (∀ events st x, x ∈ (runEngine sent expSeq events st).2.sends →
      x ∈ st.sends ∨ x = sent) := by
  constructor
  · intro t es d r log h
    rw [runEngine]
    have hf : fireTimeouts sent (TimedEvent.mk t Wire.nak).time
        (EngineState.mk d (r + 1) log).deadline
        (EngineState.mk d (r + 1) log).retriesLeft
        (EngineState.mk d (r + 1) log).sends = (⟨d, r + 1, log⟩, true) :=
      fireTimeouts_noop sent t d (r + 1) log h
    rw [hf]
    rfl
  · exact runEngine_sends sent expSeq

/-- Witness for C5: one NAK at t=100 within the deadline makes the engine
retransmit exactly the previously sent frame. -/
theorem engine_nak_retransmits_verbatim_witness :
    runEngine [9] 0x20 [⟨100, Wire.nak⟩] ⟨500, 0 + 1, [[9]]⟩ =
      runEngine [9] 0x20 [] ⟨100 + 500, 0, [[9]] ++ [[9]]⟩ :=
  (engine_nak_retransmits_verbatim [9] 0x20).1 100 [] 500 0 [[9]] (by decide)

/-- A SYN arrival schedule is well timed when each SYN arrives within the
deadline as re-armed by its predecessor. -/
def synOk : Nat → List Nat → Bool
  | _, [] => true
  | d, t :: ts => decide (t ≤ d) && synOk (t + 500) ts

/-- The receive deadline in force after a well-timed SYN schedule. -/
def chainEnd : Nat → List Nat → Nat
  | d, [] => d
  | _, t :: ts => chainEnd (t + 500) ts

lemma runEngine_syn_chain (sent : List Nat) (expSeq : Nat) :
    ∀ (ts : List Nat) (tr : Nat) (rep : List Nat) (f : RecvFrame) (d r : Nat)
      (log : List (List Nat)),
      synOk d ts = true → tr ≤ chainEnd d ts →
      decodeRecv rep = .ok f → f.sequence = expSeq →
      runEngine sent expSeq
          (ts.map (fun u => ⟨u, Wire.syn⟩) ++ [⟨tr, Wire.frame rep⟩]) ⟨d, r, log⟩ =
        (.success f, ⟨chainEnd d ts, r, log⟩) := by
  intro ts
  induction ts with
  | nil =>
    intro tr rep f d r log hok htr hrep hseq
    have htr' : tr ≤ d := by simpa [chainEnd] using htr
    simp only [List.map_nil, List.nil_append]
    rw [runEngine]
    have hf : fireTimeouts sent (TimedEvent.mk tr (Wire.frame rep)).time
        (EngineState.mk d r log).deadline (EngineState.mk d r log).retriesLeft
        (EngineState.mk d r log).sends = (⟨d, r, log⟩, true) :=
      fireTimeouts_noop sent tr d r log htr'
    rw [hf]
    show (match engineStep sent expSeq ⟨tr, Wire.frame rep⟩ ⟨d, r, log⟩ with
      | .cont st2 => runEngine sent expSeq [] st2
      | .done r2 stf => (r2, stf)) = _
    rw [engineStep]
    simp [hrep, hseq, chainEnd]
  | cons t ts ih =>
    intro tr rep f d r log hok htr hrep hseq
    rw [synOk] at hok
    have h1 : t ≤ d := by
      have h := (Bool.and_eq_true _ _).mp hok
      exact of_decide_eq_true h.1
    have h2 : synOk (t + 500) ts = true := ((Bool.and_eq_true _ _).mp hok).2
    have htr' : tr ≤ chainEnd (t + 500) ts := by simpa [chainEnd] using htr
    simp only [List.map_cons, List.cons_append]
    rw [runEngine]
    have hf : fireTimeouts sent (TimedEvent.mk t Wire.syn).time
        (EngineState.mk d r log).deadline (EngineState.mk d r log).retriesLeft
        (EngineState.mk d r log).sends = (⟨d, r, log⟩, true) :=
      fireTimeouts_noop sent t d r log h1
    rw [hf]
    show runEngine sent expSeq (ts.map (fun u => ⟨u, Wire.syn⟩) ++ [⟨tr, Wire.frame rep⟩])
        ⟨t + 500, r, log⟩ = _
    exact ih tr rep f (t + 500) r log h2 htr' hrep hseq

/-- C6: while awaiting a reply, a SYN received within the deadline re-arms
only the 500 ms wait clock — retry count, transmission log and the frame
being sent are untouched; SYN is the only event that leaves the engine
waiting with nothing sent and the retry count unchanged; and any
well-timed SYN schedule followed by a checksum-valid reply with the
expected sequence reaches `Success` with no timeout-driven
retransmission. -/
theorem engine_syn_extends_deadline (sent : List Nat) (expSeq : Nat) :
    (∀ t es st, t ≤ st.deadline →
      runEngine sent expSeq (⟨t, Wire.syn⟩ :: es) st =
        runEngine sent expSeq es ⟨t + 500, st.retriesLeft, st.sends⟩) ∧
    (∀ e st st2, e.time ≤ st.deadline → engineStep sent expSeq e st = .cont st2 →
      st2.retriesLeft = st.retriesLeft → st2.sends = st.sends →
      e.ev = Wire.syn ∧ st2.deadline = e.time + 500) ∧
    (∀ ts tr rep f d r log, synOk d ts = true → tr ≤ chainEnd d ts →
      decodeRecv rep = .ok f → f.sequence = expSeq →
      runEngine sent expSeq
          (ts.map (fun u => ⟨u, Wire.syn⟩) ++ [⟨tr, Wire.frame rep⟩]) ⟨d, r, log⟩ =
        (.success f, ⟨chainEnd d ts, r, log⟩)) := by
  refine ⟨?_, ?_, ?_⟩
  · intro t es st h
    rw [runEngine]
    have hf : fireTimeouts sent (TimedEvent.mk t Wire.syn).time st.deadline st.retriesLeft
        st.sends = (⟨st.deadline, st.retriesLeft, st.sends⟩, true) :=
      fireTimeouts_noop sent t st.deadline st.retriesLeft st.sends h
    rw [hf]
    rfl
  · intro e st st2 htime hstep hretr hsends
    rw [engineStep] at hstep
    split at hstep
    · rename_i hev
      split at hstep
      · cases hstep
      · rename_i r hr
        cases hstep
        exfalso
        have : st.sends ++ [sent] = st.sends := hsends
        have hlen := congrArg List.length this
        simp at hlen
    · rename_i hev
      cases hstep
      exact ⟨hev, rfl⟩
    · rename_i bytes hev
      split at hstep
      · split at hstep <;> cases hstep
      · split at hstep
        · cases hstep
        · rename_i r hr
          cases hstep
          exfalso
          rw [hr] at hretr
          simp at hretr
  · exact runEngine_syn_chain sent expSeq

/-- Witness for C6: a single timely SYN re-arms the deadline and nothing else. -/
theorem engine_syn_extends_deadline_witness :
    runEngine [9] 0x20 [⟨100, Wire.syn⟩] ⟨500, 1, [[9]]⟩ =
      runEngine [9] 0x20 [] ⟨100 + 500, 1, [[9]]⟩ :=
  (engine_syn_extends_deadline [9] 0x20).1 100 [] ⟨500, 1, [[9]]⟩ (by decide)

/-- Modelled from the spec: per-connection Command Session state — the
outgoing sequence counter and the caller-configured retry budget. -/
structure Session where
  seq : Nat
  maxRetries : Nat
  deriving DecidableEq, Repr

/-- Advance the sequence counter, wrapping within 0x20-0xFF (never reusing
0x00-0x1F). -/
def advanceSeq (s : Nat) : Nat := if s < 0xFF then s + 1 else 0x20

/-- Modelled from the spec: Command Session `execute` — encode the request,
drive the engine against the script of received events, decode the status
snapshot on success.  The sequence counter advances exactly on success;
every failure leaves it untouched. -/
def execute (sess : Session) (cmd : Nat) (data : List Nat) (events : List TimedEvent) :
    Except FrameError (RecvFrame × StatusFlags) × Session :=
  match encode sess.seq cmd data with
  | .error e => (.error e, sess)
  | .ok bytes =>
    match (runEngine bytes sess.seq events ⟨500, sess.maxRetries, [bytes]⟩).1 with
    | .success f => (.ok (f, decodeStatus f.status), ⟨advanceSeq sess.seq, sess.maxRetries⟩)
    | .failed e => (.error e, sess)

/-- C4: the session's sequence counter stays within 0x20-0xFF, advances
exactly once per successful `execute` call, is left unchanged by every
failed call, and in particular is unchanged when the retry budget is
exhausted with no reply at all (`DeviceUnresponsive`). -/
theorem execute_seq_discipline (sess : Session) (cmd : Nat) (data : List Nat)
    (events : List TimedEvent) (h1 : 0x20 ≤ sess.seq) (h2 : sess.seq ≤ 0xFF) :
    (0x20 ≤ (execute sess cmd data events).2.seq ∧
      (execute sess cmd data events).2.seq ≤ 0xFF) ∧
    (∀ v, (execute sess cmd data events).1 = .ok v →
      (execute sess cmd data events).2.seq = advanceSeq sess.seq ∧
      (execute sess cmd data events).2.seq ≠ sess.seq) ∧
    (∀ e, (execute sess cmd data events).1 = .error e →
      (execute sess cmd data events).2.seq = sess.seq) ∧
    ((execute sess cmd data []).2.seq = sess.seq ∧
      ((execute sess cmd data []).1 = .error .deviceUnresponsive ∨
        (execute sess cmd data []).1 = .error .invalidPayload)) := by
  have hadv1 : 0x20 ≤ advanceSeq sess.seq := by rw [advanceSeq]; split <;> omega
  have hadv2 : advanceSeq sess.seq ≤ 0xFF := by rw [advanceSeq]; split <;> omega
  have hadvne : advanceSeq sess.seq ≠ sess.seq := by rw [advanceSeq]; split <;> omega
  rcases hE : encode sess.seq cmd data with e0 | bytes
  · refine ⟨?_, ?_, ?_, ?_⟩
    · simp [execute, hE]; omega
    · intro v hv
      simp [execute, hE] at hv
    · intro e he
      simp [execute, hE]
    · constructor
      · simp [execute, hE]
      · right
        have : e0 = FrameError.invalidPayload := by
          rw [encode] at hE
          split at hE
          · cases hE; rfl
          split at hE
          · cases hE; rfl
          · cases hE
        subst this
        simp [execute, hE]
  · rcases hR : (runEngine bytes sess.seq events ⟨500, sess.maxRetries, [bytes]⟩).1 with f | e1
    · refine ⟨?_, ?_, ?_, ?_⟩
      · simp [execute, hE, hR]; omega
      · intro v hv
        simp [execute, hE, hR]
        exact hadvne
      · intro e he
        simp [execute, hE, hR] at he
      · constructor
        · simp [execute, hE, runEngine]
        · left
          simp [execute, hE, runEngine]
    · refine ⟨?_, ?_, ?_, ?_⟩
      · simp [execute, hE, hR]; omega
      · intro v hv
        simp [execute, hE, hR] at hv
      · intro e he
        simp [execute, hE, hR]
      · constructor
        · simp [execute, hE, runEngine]
        · left
          simp [execute, hE, runEngine]

/-- Witness for C4: with an empty event script the retry budget exhausts,
the call fails, and the sequence counter is unchanged. -/
theorem execute_seq_discipline_witness :
    (execute ⟨0x20, 1⟩ 74 [] []).2.seq = 0x20 :=
  ((execute_seq_discipline ⟨0x20, 1⟩ 74 [] [] (by decide) (by decide)).2.2.2).1
